import Mathlib

/-!
Shallow embedding of the CRM mutation engine of `crm/schema.py`
(customers, products, orders; single and bulk creation, order assembly
with computed totals, threshold-based stock replenishment).

Strings from the Python code are embedded as `List Char`; Python
`str.strip()` is `stripL`, case-insensitive comparison (`email__iexact`)
goes through `lowerL`.  Money (`Decimal` with two fractional digits) is
embedded as an integer number of cents, which makes the fixed-point
decimal arithmetic of the code exact.  Database timestamps and the
`order_date` argument are elided: no claim mentions them.
-/

namespace Crm

/-- Strip of leading and trailing whitespace, the embedding of Python
`str.strip()`. -/
def stripL (l : List Char) : List Char :=
  ((l.dropWhile Char.isWhitespace).reverse.dropWhile Char.isWhitespace).reverse

/-- Lower-casing of a string, used to embed Django `email__iexact`
comparisons. -/
def lowerL (l : List Char) : List Char := l.map Char.toLower

/-- Split of a character list at every occurrence of `sep`, the embedding of
Python `str.split(sep)`: `splitOnChar sep [] = [[]]`, and separators at the
ends produce empty chunks. -/
def splitOnChar (sep : Char) : List Char → List (List Char)
  | [] => [[]]
  | c :: rest =>
    if c = sep then [] :: splitOnChar sep rest
    else
      match splitOnChar sep rest with
      | [] => [[c]]
      | h :: t => (c :: h) :: t

/-- Join of chunks with a single separator character between them, the
embedding of Python `sep.join(chunks)`. -/
def joinSep (sep : Char) : List (List Char) → List Char
  | [] => []
  | [chunk] => chunk
  | chunk :: rest => chunk ++ sep :: joinSep sep rest

/-- Special characters accepted in the local part of an email address by the
framework email validator (the dot-atom grammar; a few exotic specials of the
full grammar are omitted from the model, none of them whitespace). -/
def isEmailSpecial (c : Char) : Bool :=
  c = '!' || c = '#' || c = '$' || c = '%' || c = '&' || c = '*' || c = '+' ||
  c = '/' || c = '=' || c = '?' || c = '^' || c = '_' || c = '|' || c = '~' || c = '-'

/-- Characters accepted in a dot-atom chunk of the local part. -/
def isEmailUserChar (c : Char) : Bool := c.isAlphanum || isEmailSpecial c

/-- Dot-atom check: the string splits at dots into chunks that are all
non-empty and made of characters accepted by `pred`. -/
def dotAtomOk (pred : Char → Bool) (l : List Char) : Bool :=
  (splitOnChar '.' l).all (fun chunk => !chunk.isEmpty && chunk.all pred)

/-- Characters accepted inside a host-name label. -/
def isDomainChar (c : Char) : Bool := c.isAlphanum || c = '-'

/-- Non-final host-name label: non-empty, made of alphanumerics and hyphens,
starting and ending alphanumeric (the per-label length cap of the framework
regex is not modelled). -/
def validDomainLabel (l : List Char) : Bool :=
  !l.isEmpty && l.all isDomainChar &&
    (l.headD ' ').isAlphanum && (l.getLastD ' ').isAlphanum

/-- Final host-name label: at least two characters, alphanumerics and
hyphens, not ending with a hyphen. -/
def validFinalLabel (l : List Char) : Bool :=
  decide (2 ≤ l.length) && l.all isDomainChar && !(l.getLastD '-' = '-')

/-- Domain part of an email address: at least two dot-separated labels, the
leading ones valid as `validDomainLabel` and the last as `validFinalLabel`. -/
def validDomain (l : List Char) : Bool :=
  let labels := splitOnChar '.' l
  decide (2 ≤ labels.length) && labels.dropLast.all validDomainLabel &&
    validFinalLabel (labels.getLastD [])

/-- Modelled from the framework (django.core.validators.validate_email,
external to this repository): the string splits at its last `@` into a
dot-atom local part and a multi-label domain part.  The quoted-string local
part and IP-literal domains of the full validator are not modelled. -/
def validate_email (l : List Char) : Bool :=
  let parts := splitOnChar '@' l
  decide (2 ≤ parts.length) &&
    dotAtomOk isEmailUserChar (joinSep '@' parts.dropLast) &&
    validDomain (parts.getLastD [])

/-- Embedding of `validate_phone` of `crm/schema.py`: the empty string is
accepted, otherwise one of three shapes must match: `+` followed by 7 to 15
digits, `ddd-ddd-dddd`, or 7 to 15 bare digits. -/
def validate_phone (p : List Char) : Bool :=
  if p.isEmpty then true
  else
    (match p with
     | '+' :: ds => ds.all Char.isDigit && decide (7 ≤ ds.length) && decide (ds.length ≤ 15)
     | _ => false) ||
    (match splitOnChar '-' p with
     | [a, b, c] =>
       decide (a.length = 3) && decide (b.length = 3) && decide (c.length = 4) &&
         (a ++ b ++ c).all Char.isDigit
     | _ => false) ||
    (p.all Char.isDigit && decide (7 ≤ p.length) && decide (p.length ≤ 15))

/-- Embedding of the `Customer` model of `crm/models.py` (timestamps
elided). -/
structure Customer where
  id : Nat
  name : List Char
  email : List Char
  phone : Option (List Char)
deriving DecidableEq

/-- Embedding of the `Product` model of `crm/models.py`: the price is an
integer number of cents (exact fixed-point decimal with two fractional
digits), the stock an integer. -/
structure Product where
  id : Nat
  name : List Char
  price : Int
  stock : Int
deriving DecidableEq

/-- Embedding of the `Order` model of `crm/models.py`: the owning customer,
the ids of the associated products (the many-to-many set), and the stored
total amount in cents. -/
structure Order where
  id : Nat
  customerId : Nat
  productIds : List Nat
  totalAmount : Int
deriving DecidableEq

/-- Database state: the persisted rows of the three tables, together with
the next fresh primary key of each table. -/
structure State where
  customers : List Customer
  products : List Product
  orders : List Order
  nextCustomerId : Nat
  nextProductId : Nat
  nextOrderId : Nat
deriving DecidableEq

/-- Well-formedness of the database state used by the order theorems:
primary keys of the product table are distinct (enforced by the store). -/
def State.wf (s : State) : Prop := (s.products.map (fun p => p.id)).Nodup

instance (s : State) : Decidable s.wf := by unfold State.wf; infer_instance

/-- Embedding of the shared `FieldError` GraphQL type of `crm/schema.py`. -/
structure FieldError where
  field : String
  message : String
deriving DecidableEq

/-- Embedding of the `CustomerInput` input type for bulk creation. -/
structure CustomerInput where
  name : List Char
  email : List Char
  phone : Option (List Char)
deriving DecidableEq

/-- Embedding of `Customer.objects.filter(email__iexact=email).exists()`:
some persisted customer's email equals the candidate case-insensitively. -/
def emailExists (s : State) (email : List Char) : Bool :=
  s.customers.any (fun c => lowerL c.email = lowerL email)

/-- Truthiness of an optional string, the embedding of Python
`if phone and ...`: present and non-empty. -/
def phoneTruthy (phone : Option (List Char)) : Bool :=
  match phone with
  | none => false
  | some p => !p.isEmpty

/-- Result record of the `CreateCustomer` mutation. -/
structure CreateCustomerResult where
  customer : Option Customer
  success : Bool
  message : String
  errors : List FieldError
deriving DecidableEq

/-- Error list collected by `CreateCustomer.mutate`: the email-format,
email-uniqueness and phone-format checks, in source order, each contributing
one `FieldError` when violated. -/
def createCustomerErrors (s : State) (email : List Char) (phone : Option (List Char)) :
    List FieldError :=
  (if validate_email email then [] else [⟨"email", "Invalid email format."⟩]) ++
  (if emailExists s email then [⟨"email", "Email already exists."⟩] else []) ++
  (if phoneTruthy phone && !validate_phone (phone.getD []) then
    [⟨"phone", "Invalid phone format. Use +1234567890 or 123-456-7890."⟩] else [])

/-- Embedding of `CreateCustomer.mutate` of `crm/schema.py`: collect the
email-format, email-uniqueness and phone-format errors; if any, return
failure without a write; otherwise persist a customer with name and email
stripped and the phone stored as given. -/
def createCustomer (s : State) (name email : List Char) (phone : Option (List Char)) :
    CreateCustomerResult × State :=
  let errors : List FieldError := createCustomerErrors s email phone
  if errors.isEmpty then
    let c : Customer := ⟨s.nextCustomerId, stripL name, stripL email, phone⟩
    (⟨some c, true, "Customer created successfully", []⟩,
     { s with customers := s.customers ++ [c], nextCustomerId := s.nextCustomerId + 1 })
  else
    (⟨none, false, "Validation errors", errors⟩, s)

/-- Field path `customers[i].email` of a bulk per-item error. -/
def bulkEmailField (i : Nat) : String := "customers[" ++ toString i ++ "].email"

/-- Field path `customers[i].phone` of a bulk per-item error. -/
def bulkPhoneField (i : Nat) : String := "customers[" ++ toString i ++ "].phone"

/-- Embedding of one iteration of the `BulkCreateCustomers.mutate` loop:
strip name and email, then check email format, email uniqueness and phone
format in order, stopping at the first failure (`continue` in the source);
on the all-valid path persist the customer inside its own atomic block. -/
def processItem (s : State) (index : Nat) (c : CustomerInput) :
    (Customer ⊕ FieldError) × State :=
  let name := stripL c.name
  let email := stripL c.email
  let phone := c.phone
  if !validate_email email then
    (Sum.inr ⟨bulkEmailField index, "Invalid email format."⟩, s)
  else if emailExists s email then
    (Sum.inr ⟨bulkEmailField index, "Email already exists."⟩, s)
  else if phoneTruthy phone && !validate_phone (phone.getD []) then
    (Sum.inr ⟨bulkPhoneField index, "Invalid phone format."⟩, s)
  else
    let cust : Customer := ⟨s.nextCustomerId, name, email, phone⟩
    (Sum.inl cust,
     { s with customers := s.customers ++ [cust], nextCustomerId := s.nextCustomerId + 1 })

/-- Left-to-right loop of `BulkCreateCustomers.mutate`, threading the state
and the positional index; returns the created customers and the errors in
input order. -/
def bulkGo (s : State) (index : Nat) :
    List CustomerInput → List Customer × List FieldError × State
  | [] => ([], [], s)
  | c :: rest =>
    match processItem s index c with
    | (Sum.inl cust, s1) =>
      let (cs, es, s2) := bulkGo s1 (index + 1) rest
      (cust :: cs, es, s2)
    | (Sum.inr err, s1) =>
      let (cs, es, s2) := bulkGo s1 (index + 1) rest
      (cs, err :: es, s2)

/-- Result record of the `BulkCreateCustomers` mutation. -/
structure BulkResult where
  createdCustomers : List Customer
  errors : List FieldError
  success : Bool
  message : String
deriving DecidableEq

/-- Embedding of `BulkCreateCustomers.mutate` of `crm/schema.py`: process
the inputs left to right with per-item isolation, then report success iff
no error, with the summary message of the source. -/
def bulkCreateCustomers (s : State) (inputs : List CustomerInput) : BulkResult × State :=
  let (created, errors, s1) := bulkGo s 0 inputs
  let success := errors.length = 0
  let msg :=
    if success then "All customers created successfully."
    else "Created " ++ toString created.length ++ " customers; " ++
         toString errors.length ++ " failed."
  (⟨created, errors, success, msg⟩, s1)

/-- Result record of the `CreateProduct` mutation. -/
structure CreateProductResult where
  product : Option Product
  success : Bool
  message : String
  errors : List FieldError
deriving DecidableEq

/-- Error list collected by `CreateProduct.mutate`: the empty-name,
non-positive-price and negative-stock checks, in source order. -/
def createProductErrors (name : List Char) (price stock : Int) : List FieldError :=
  (if (stripL name).isEmpty then [⟨"name", "Name cannot be empty."⟩] else []) ++
  (if price ≤ 0 then [⟨"price", "Price must be positive."⟩] else []) ++
  (if stock < 0 then [⟨"stock", "Stock cannot be negative."⟩] else [])

/-- Embedding of `CreateProduct.mutate` of `crm/schema.py`: collect the
empty-name, non-positive-price and negative-stock errors; if any, return
failure without a write; otherwise persist the product with the name
stripped. -/
def createProduct (s : State) (name : List Char) (price stock : Int) :
    CreateProductResult × State :=
  let errors : List FieldError := createProductErrors name price stock
  if errors.isEmpty then
    let p : Product := ⟨s.nextProductId, stripL name, price, stock⟩
    (⟨some p, true, "Product created successfully", []⟩,
     { s with products := s.products ++ [p], nextProductId := s.nextProductId + 1 })
  else
    (⟨none, false, "Validation errors", errors⟩, s)

/-- Embedding of `Customer.objects.get(id=customer_id)`: the persisted
customer with the given primary key, if any. -/
def getCustomer (s : State) (id : Nat) : Option Customer :=
  s.customers.find? (fun c => c.id = id)

/-- Embedding of `list(Product.objects.filter(id__in=product_ids))`: the
persisted products whose primary key occurs in the request, each row once,
in table order. -/
def resolveProducts (s : State) (productIds : List Nat) : List Product :=
  s.products.filter (fun p => productIds.contains p.id)

/-- Python equality between a requested GraphQL `ID` (which arrives from
the transport layer as a string) and an integer primary key: Python values
of these two types are never equal, so the comparison is constantly
false. -/
def pyStrIntEq (_ : String) (_ : Nat) : Bool := false

/-- Embedding of `set(product_ids) - set(p.id for p in valid_products)` of
`CreateOrder.mutate`.  In the source the requested identities are GraphQL
`ID` scalars and reach the resolver as strings, while `p.id` is an integer
(the resolution query coerces the strings, the set difference does not);
the difference therefore compares `str` against `int` through `pyStrIntEq`
and removes nothing: every requested identity is retained, as a
duplicate-free set. -/
def invalidIds (s : State) (productIds : List Nat) : List Nat :=
  (productIds.filter (fun i =>
    !((resolveProducts s productIds).map (fun p => p.id)).any
      (fun pk => pyStrIntEq (toString i) pk))).dedup

/-- Rendering of the invalid-id list into the error message of the source
(`", ".join(map(str, invalid_ids))`). -/
def renderIds (ids : List Nat) : String :=
  String.intercalate ", " (ids.map toString)

/-- Result record of the `CreateOrder` mutation. -/
structure CreateOrderResult where
  order : Option Order
  success : Bool
  message : String
  errors : List FieldError
deriving DecidableEq

/-- Error list collected by `CreateOrder.mutate`: the unresolved-customer
check, then the empty-product-list check or the invalid-product-id check,
in source order. -/
def createOrderErrors (s : State) (customerId : Nat) (productIds : List Nat) :
    List FieldError :=
  (if (getCustomer s customerId).isNone then
    [⟨"customer_id", "Invalid customer ID."⟩] else []) ++
  (if productIds.isEmpty then
    [⟨"product_ids", "At least one product is required."⟩]
   else if (resolveProducts s productIds).length ≠ productIds.length then
    [⟨"product_ids", "Invalid IDs: " ++ renderIds (invalidIds s productIds)⟩]
   else [])

/-- Embedding of `CreateOrder.mutate` of `crm/schema.py`: resolve the
customer and the products, collect the customer-id, empty-list and
invalid-id errors through `createOrderErrors`; if any, return failure
before any write; otherwise, in one transaction, persist an order
associated with the resolved products and carrying the exact sum of their
current prices. -/
def createOrder (s : State) (customerId : Nat) (productIds : List Nat) :
    CreateOrderResult × State :=
  let errors := createOrderErrors s customerId productIds
  if errors.isEmpty then
    let valid := resolveProducts s productIds
    let total := (valid.map (fun p => p.price)).sum
    let order : Order := ⟨s.nextOrderId, customerId, valid.map (fun p => p.id), total⟩
    (⟨some order, true, "Order created successfully", []⟩,
     { s with orders := s.orders ++ [order], nextOrderId := s.nextOrderId + 1 })
  else
    (⟨none, false, "Validation errors", errors⟩, s)

/-- Embedding of `UpdateLowStockProducts.mutate` of `crm/schema.py`: count
the products with stock strictly below the threshold, then increment each
of their stocks by the restock amount, leaving the others untouched. -/
def updateLowStockProducts (s : State) (threshold restockAmount : Int) :
    Nat × State :=
  let lowStock := s.products.filter (fun p => p.stock < threshold)
  let updatedCount := lowStock.length
  let restocked := s.products.map
    (fun p => if p.stock < threshold then { p with stock := p.stock + restockAmount } else p)
  (updatedCount, { s with products := restocked })

/-- Case-insensitive email uniqueness invariant of the customer table: no
two persisted customers have the same lower-cased email. -/
def emailsOk (s : State) : Prop :=
  (s.customers.map (fun c => lowerL c.email)).Nodup

instance (s : State) : Decidable (emailsOk s) := by unfold emailsOk; infer_instance

/-- Placeholder product used as the irrelevant default of positional list
lookups. -/
def dfltProduct : Product := ⟨0, [], 0, 0⟩

/-- Empty initial database. -/
def emptyState : State := ⟨[], [], [], 1, 1, 1⟩

/-- Demo fixture: one customer (id 1) and two products, id 1 priced 10.00
with stock 5 and id 2 priced 15.00 with stock 20. -/
def demoState : State :=
  ⟨[⟨1, "C".toList, "c@x.com".toList, none⟩],
   [⟨1, "P1".toList, 1000, 5⟩, ⟨2, "P2".toList, 1500, 20⟩], [], 2, 3, 1⟩

/-- Valid bulk input A. -/
def inputA : CustomerInput := ⟨"A".toList, "a@x.com".toList, none⟩

/-- Bulk input that repeats the email of `inputA`. -/
def inputDupA : CustomerInput := ⟨"B".toList, "a@x.com".toList, none⟩

/-- Valid bulk input C with a fresh email. -/
def inputC : CustomerInput := ⟨"C".toList, "b@x.com".toList, none⟩

/-! Helper lemmas about the string utilities. -/

theorem splitOnChar_ne_nil (sep : Char) (l : List Char) : splitOnChar sep l ≠ [] := by
  cases l with
  | nil => simp [splitOnChar]
  | cons c rest =>
    unfold splitOnChar
    by_cases h : c = sep
    · simp [h]
    · simp only [h, if_false]
      cases splitOnChar sep rest <;> simp

theorem mem_splitOnChar (sep : Char) (l : List Char) (c : Char) (hc : c ∈ l) :
    c = sep ∨ ∃ ch ∈ splitOnChar sep l, c ∈ ch := by
  induction l with
  | nil => cases hc
  | cons a rest ih =>
    unfold splitOnChar
    by_cases ha : a = sep
    · rcases List.mem_cons.mp hc with h | h
      · exact Or.inl (h.trans ha)
      · rcases ih h with h1 | ⟨ch, hch, hcch⟩
        · exact Or.inl h1
        · exact Or.inr ⟨ch, by simp [ha, hch], hcch⟩
    · simp only [ha, if_false]
      rcases hsplit : splitOnChar sep rest with _ | ⟨h0, t0⟩
      · exact absurd hsplit (splitOnChar_ne_nil sep rest)
      · rcases List.mem_cons.mp hc with h | h
        · exact Or.inr ⟨a :: h0, by simp, by simp [h]⟩
        · rcases ih h with h1 | ⟨ch, hch, hcch⟩
          · exact Or.inl h1
          · rw [hsplit] at hch
            rcases List.mem_cons.mp hch with h2 | h2
            · exact Or.inr ⟨a :: h0, by simp, by simp [h2 ▸ hcch]⟩
            · exact Or.inr ⟨ch, by simp [h2], hcch⟩

theorem mem_joinSep (sep : Char) (parts : List (List Char)) (ch : List Char)
    (c : Char) (hch : ch ∈ parts) (hc : c ∈ ch) : c ∈ joinSep sep parts := by
  induction parts with
  | nil => cases hch
  | cons p rest ih =>
    rcases List.mem_cons.mp hch with h | h
    · cases rest with
      | nil => simpa [joinSep, h] using hc
      | cons q t => simp [joinSep, h ▸ hc]
    · cases rest with
      | nil => cases h
      | cons q t =>
        have := ih h
        simp [joinSep, this]

theorem dotAtom_chars (pred : Char → Bool) (l : List Char)
    (h : dotAtomOk pred l = true) (c : Char) (hc : c ∈ l) :
    pred c = true ∨ c = '.' := by
  rcases mem_splitOnChar '.' l c hc with h1 | ⟨ch, hch, hcch⟩
  · exact Or.inr h1
  · have hchunk := (List.all_eq_true.mp h) ch hch
    simp only [Bool.and_eq_true] at hchunk
    exact Or.inl ((List.all_eq_true.mp hchunk.2) c hcch)

theorem mem_dropLast_or_getLastD {α : Type} (l : List α) (a d : α)
    (ha : a ∈ l) : a ∈ l.dropLast ∨ a = l.getLastD d := by
  have hne : l ≠ [] := List.ne_nil_of_mem ha
  have hdecomp := List.dropLast_append_getLast hne
  rw [← hdecomp] at ha
  rcases List.mem_append.mp ha with h | h
  · exact Or.inl h
  · right
    have h1 : a = l.getLast hne := by simpa using h
    rw [h1, List.getLastD_eq_getLast?, List.getLast?_eq_getLast l hne]
    rfl

theorem validDomain_chars (l : List Char) (h : validDomain l = true) (c : Char)
    (hc : c ∈ l) : isDomainChar c = true ∨ c = '.' := by
  rcases mem_splitOnChar '.' l c hc with h1 | ⟨ch, hch, hcch⟩
  · exact Or.inr h1
  · unfold validDomain at h
    simp only [Bool.and_eq_true] at h
    rcases mem_dropLast_or_getLastD (splitOnChar '.' l) ch [] hch with h2 | h2
    · have := (List.all_eq_true.mp h.1.2) ch h2
      unfold validDomainLabel at this
      simp only [Bool.and_eq_true] at this
      exact Or.inl ((List.all_eq_true.mp this.1.1.2) c hcch)
    · have hfin := h.2
      rw [← h2] at hfin
      unfold validFinalLabel at hfin
      simp only [Bool.and_eq_true] at hfin
      exact Or.inl ((List.all_eq_true.mp hfin.1.2) c hcch)

theorem not_ws_of_userChar (c : Char) (h : isEmailUserChar c = true) :
    c.isWhitespace = false := by
  by_contra hw
  rw [Bool.not_eq_false] at hw
  have hc : c = ' ' ∨ c = '\t' ∨ c = '\r' ∨ c = '\n' := by
    simpa [Char.isWhitespace, or_assoc] using hw
  rcases hc with h1 | h1 | h1 | h1 <;> subst h1 <;> exact absurd h (by decide)

theorem not_ws_of_domainChar (c : Char) (h : isDomainChar c = true) :
    c.isWhitespace = false := by
  by_contra hw
  rw [Bool.not_eq_false] at hw
  have hc : c = ' ' ∨ c = '\t' ∨ c = '\r' ∨ c = '\n' := by
    simpa [Char.isWhitespace, or_assoc] using hw
  rcases hc with h1 | h1 | h1 | h1 <;> subst h1 <;> exact absurd h (by decide)

theorem validate_email_no_ws (l : List Char) (h : validate_email l = true)
    (c : Char) (hc : c ∈ l) : c.isWhitespace = false := by
  unfold validate_email at h
  simp only [Bool.and_eq_true] at h
  rcases mem_splitOnChar '@' l c hc with h1 | ⟨ch, hch, hcch⟩
  · subst h1; decide
  · rcases mem_dropLast_or_getLastD (splitOnChar '@' l) ch [] hch with h2 | h2
    · have hmem := mem_joinSep '@' (splitOnChar '@' l).dropLast ch c h2 hcch
      rcases dotAtom_chars isEmailUserChar _ h.1.2 c hmem with h3 | h3
      · exact not_ws_of_userChar c h3
      · subst h3; decide
    · rw [h2] at hcch
      rcases validDomain_chars _ h.2 c hcch with h3 | h3
      · exact not_ws_of_domainChar c h3
      · subst h3; decide

theorem dropWhile_eq_self_of_not (p : Char → Bool) (l : List Char)
    (h : ∀ c ∈ l, p c = false) : l.dropWhile p = l := by
  cases l with
  | nil => rfl
  | cons a t => simp [List.dropWhile_cons, h a (by simp)]

theorem stripL_eq_self (l : List Char) (h : ∀ c ∈ l, c.isWhitespace = false) :
    stripL l = l := by
  unfold stripL
  rw [dropWhile_eq_self_of_not _ l h]
  rw [dropWhile_eq_self_of_not _ l.reverse (fun c hc => h c (List.mem_reverse.mp hc))]
  exact List.reverse_reverse l

theorem validate_email_stripL (l : List Char) (h : validate_email l = true) :
    stripL l = l :=
  stripL_eq_self l (validate_email_no_ws l h)

/-! Helper lemmas about the mutations. -/

theorem emailExists_false (s : State) (e : List Char) (h : emailExists s e = false) :
    ∀ c ∈ s.customers, lowerL c.email ≠ lowerL e := by
  intro c hc
  unfold emailExists at h
  rw [List.any_eq_false] at h
  simpa using h c hc

theorem emailsOk_snoc (cs : List Customer) (cust : Customer)
    (h : (cs.map (fun c => lowerL c.email)).Nodup)
    (hex : ∀ c ∈ cs, lowerL c.email ≠ lowerL cust.email) :
    ((cs ++ [cust]).map (fun c => lowerL c.email)).Nodup := by
  rw [List.map_append, List.nodup_append]
  refine ⟨h, List.nodup_singleton _, ?_⟩
  intro a ha hb
  rcases List.mem_map.mp ha with ⟨c, hc, rfl⟩
  have hb1 : lowerL c.email = lowerL cust.email := by simpa using hb
  exact hex c hc hb1

/-- Exhaustive description of one bulk-loop iteration: either it reports one
indexed error and leaves the state untouched, or it persists exactly the
stripped input as a fresh customer, the uniqueness check having passed. -/
theorem processItem_cases (s : State) (i : Nat) (c : CustomerInput) :
    (∃ err, processItem s i c = (Sum.inr err, s) ∧
       (err.field = bulkEmailField i ∨ err.field = bulkPhoneField i)) ∨
    (processItem s i c =
       (Sum.inl ⟨s.nextCustomerId, stripL c.name, stripL c.email, c.phone⟩,
        { s with
            customers := s.customers ++ [⟨s.nextCustomerId, stripL c.name, stripL c.email, c.phone⟩],
            nextCustomerId := s.nextCustomerId + 1 }) ∧
       emailExists s (stripL c.email) = false) := by
  unfold processItem
  dsimp only
  split_ifs with h1 h2 h3
  · exact Or.inl ⟨_, rfl, Or.inl rfl⟩
  · exact Or.inl ⟨_, rfl, Or.inl rfl⟩
  · exact Or.inl ⟨_, rfl, Or.inr rfl⟩
  · exact Or.inr ⟨rfl, by simpa using h2⟩

theorem bulkGo_customers (inputs : List CustomerInput) :
    ∀ (s : State) (i : Nat),
      (bulkGo s i inputs).2.2.customers = s.customers ++ (bulkGo s i inputs).1 := by
  induction inputs with
  | nil => intro s i; simp [bulkGo]
  | cons c rest ih =>
    intro s i
    unfold bulkGo
    rcases processItem_cases s i c with ⟨err, heq, _⟩ | ⟨heq, _⟩
    · rcases hgo : bulkGo s (i + 1) rest with ⟨cs, es, s2⟩
      have := ih s (i + 1)
      rw [hgo] at this
      simp at this
      simp [heq, hgo, this]
    · rcases hgo : bulkGo { s with
          customers := s.customers ++ [⟨s.nextCustomerId, stripL c.name, stripL c.email, c.phone⟩],
          nextCustomerId := s.nextCustomerId + 1 } (i + 1) rest with ⟨cs, es, s2⟩
      have := ih { s with
          customers := s.customers ++ [⟨s.nextCustomerId, stripL c.name, stripL c.email, c.phone⟩],
          nextCustomerId := s.nextCustomerId + 1 } (i + 1)
      rw [hgo] at this
      simp at this
      simp [heq, hgo, this]

theorem bulkGo_count (inputs : List CustomerInput) :
    ∀ (s : State) (i : Nat),
      (bulkGo s i inputs).1.length + (bulkGo s i inputs).2.1.length = inputs.length := by
  induction inputs with
  | nil => intro s i; simp [bulkGo]
  | cons c rest ih =>
    intro s i
    unfold bulkGo
    rcases processItem_cases s i c with ⟨err, heq, _⟩ | ⟨heq, _⟩
    · rcases hgo : bulkGo s (i + 1) rest with ⟨cs, es, s2⟩
      have := ih s (i + 1)
      rw [hgo] at this
      simp only [heq, hgo]
      simp at this ⊢
      omega
    · rcases hgo : bulkGo { s with
          customers := s.customers ++ [⟨s.nextCustomerId, stripL c.name, stripL c.email, c.phone⟩],
          nextCustomerId := s.nextCustomerId + 1 } (i + 1) rest with ⟨cs, es, s2⟩
      have := ih { s with
          customers := s.customers ++ [⟨s.nextCustomerId, stripL c.name, stripL c.email, c.phone⟩],
          nextCustomerId := s.nextCustomerId + 1 } (i + 1)
      rw [hgo] at this
      simp only [heq, hgo]
      simp at this ⊢
      omega

theorem bulkGo_error_fields (inputs : List CustomerInput) :
    ∀ (s : State) (i : Nat) (e : FieldError), e ∈ (bulkGo s i inputs).2.1 →
      ∃ j, i ≤ j ∧ j < i + inputs.length ∧
        (e.field = bulkEmailField j ∨ e.field = bulkPhoneField j) := by
  induction inputs with
  | nil => intro s i e he; simp [bulkGo] at he
  | cons c rest ih =>
    intro s i e he
    unfold bulkGo at he
    rcases processItem_cases s i c with ⟨err, heq, hfield⟩ | ⟨heq, _⟩
    · rcases hgo : bulkGo s (i + 1) rest with ⟨cs, es, s2⟩
      rw [heq] at he
      dsimp only at he
      rw [hgo] at he
      simp at he
      rcases he with rfl | he
      · exact ⟨i, le_refl i, by simp, hfield⟩
      · rcases ih s (i + 1) e (by rw [hgo]; exact he) with ⟨j, hj1, hj2, hj3⟩
        exact ⟨j, by omega, by simp at hj2 ⊢; omega, hj3⟩
    · rcases hgo : bulkGo { s with
          customers := s.customers ++ [⟨s.nextCustomerId, stripL c.name, stripL c.email, c.phone⟩],
          nextCustomerId := s.nextCustomerId + 1 } (i + 1) rest with ⟨cs, es, s2⟩
      rw [heq] at he
      dsimp only at he
      rw [hgo] at he
      simp at he
      rcases ih _ (i + 1) e (by rw [hgo]; exact he) with ⟨j, hj1, hj2, hj3⟩
      exact ⟨j, by omega, by simp at hj2 ⊢; omega, hj3⟩

theorem processItem_emailsOk (s : State) (i : Nat) (c : CustomerInput)
    (h : emailsOk s) : emailsOk (processItem s i c).2 := by
  rcases processItem_cases s i c with ⟨err, heq, _⟩ | ⟨heq, hex⟩
  · rw [heq]; exact h
  · rw [heq]
    unfold emailsOk
    exact emailsOk_snoc s.customers _ h (emailExists_false s _ hex)

theorem bulkGo_emailsOk (inputs : List CustomerInput) :
    ∀ (s : State) (i : Nat), emailsOk s → emailsOk (bulkGo s i inputs).2.2 := by
  induction inputs with
  | nil => intro s i h; simpa [bulkGo] using h
  | cons c rest ih =>
    intro s i h
    unfold bulkGo
    have hstep := processItem_emailsOk s i c h
    rcases hp : processItem s i c with ⟨res, s1⟩
    rw [hp] at hstep
    cases res with
    | inl cust =>
      rcases hgo : bulkGo s1 (i + 1) rest with ⟨cs, es, s2⟩
      have := ih s1 (i + 1) hstep
      rw [hgo] at this
      simpa [hgo] using this
    | inr err =>
      rcases hgo : bulkGo s1 (i + 1) rest with ⟨cs, es, s2⟩
      have := ih s1 (i + 1) hstep
      rw [hgo] at this
      simpa [hgo] using this

theorem contains_iff_mem (l : List Nat) (a : Nat) : l.contains a = true ↔ a ∈ l := by
  simp [List.contains, List.elem_iff]

theorem resolveProducts_ids_nodup (s : State) (pids : List Nat) (hwf : s.wf) :
    ((resolveProducts s pids).map (fun p => p.id)).Nodup := by
  unfold resolveProducts
  exact List.Nodup.sublist ((List.filter_sublist s.products).map (fun p => p.id)) hwf

theorem mem_resolve_ids (s : State) (pids : List Nat) (i : Nat) :
    i ∈ (resolveProducts s pids).map (fun p => p.id) ↔
      (∃ p ∈ s.products, p.id = i) ∧ i ∈ pids := by
  unfold resolveProducts
  simp only [List.mem_map, List.mem_filter]
  constructor
  · rintro ⟨p, ⟨hp, hcont⟩, rfl⟩
    exact ⟨⟨p, hp, rfl⟩, (contains_iff_mem pids p.id).mp hcont⟩
  · rintro ⟨⟨p, hp, rfl⟩, hi⟩
    exact ⟨p, ⟨hp, (contains_iff_mem pids p.id).mpr hi⟩, rfl⟩

theorem resolve_length_lt (s : State) (pids : List Nat) (hwf : s.wf)
    (j : Nat) (hj : j ∈ pids) (hmiss : ∀ p ∈ s.products, p.id ≠ j) :
    (resolveProducts s pids).length < pids.length := by
  have hnd : ((resolveProducts s pids).map (fun p => p.id)).Nodup :=
    resolveProducts_ids_nodup s pids hwf
  have hsub : (resolveProducts s pids).map (fun p => p.id) ⊆ pids := by
    intro a ha
    exact ((mem_resolve_ids s pids a).mp ha).2
  have hjn : j ∉ (resolveProducts s pids).map (fun p => p.id) := by
    intro hmem
    rcases ((mem_resolve_ids s pids j).mp hmem).1 with ⟨p, hp, hpi⟩
    exact hmiss p hp hpi
  have hnd2 : (j :: (resolveProducts s pids).map (fun p => p.id)).Nodup :=
    List.nodup_cons.mpr ⟨hjn, hnd⟩
  have hsub2 : (j :: (resolveProducts s pids).map (fun p => p.id)) ⊆ pids := by
    intro a ha
    rcases List.mem_cons.mp ha with rfl | ha
    · exact hj
    · exact hsub ha
  have hle := (List.subperm_of_subset hnd2 hsub2).length_le
  simp at hle
  omega

theorem resolve_length_eq (s : State) (pids : List Nat) (hwf : s.wf)
    (hnd : pids.Nodup) (hall : ∀ i ∈ pids, ∃ p ∈ s.products, p.id = i) :
    (resolveProducts s pids).length = pids.length := by
  have hndv : ((resolveProducts s pids).map (fun p => p.id)).Nodup :=
    resolveProducts_ids_nodup s pids hwf
  have hsub : (resolveProducts s pids).map (fun p => p.id) ⊆ pids := by
    intro a ha
    exact ((mem_resolve_ids s pids a).mp ha).2
  have h1 := (List.subperm_of_subset hndv hsub).length_le
  have hsub2 : pids ⊆ (resolveProducts s pids).map (fun p => p.id) := by
    intro i hi
    exact (mem_resolve_ids s pids i).mpr ⟨hall i hi, hi⟩
  have h2 := (List.subperm_of_subset hnd hsub2).length_le
  simp at h1 h2
  omega

theorem mem_invalidIds (s : State) (pids : List Nat) (i : Nat) :
    i ∈ invalidIds s pids ↔ i ∈ pids := by
  unfold invalidIds
  rw [List.mem_dedup, List.mem_filter]
  simp [pyStrIntEq]

/-! Characterizations of the three create mutations. -/

theorem createCustomer_errors_eq (s : State) (name email : List Char)
    (phone : Option (List Char)) :
    (createCustomer s name email phone).1.errors =
      createCustomerErrors s email phone := by
  unfold createCustomer
  dsimp only
  split
  · rename_i h
    rw [List.isEmpty_iff] at h
    exact h.symm
  · rfl

theorem createCustomer_success (s : State) (name email : List Char)
    (phone : Option (List Char))
    (hv : validate_email email = true) (hex : emailExists s email = false)
    (hp : (phoneTruthy phone && !validate_phone (phone.getD [])) = false) :
    createCustomer s name email phone =
      (⟨some ⟨s.nextCustomerId, stripL name, stripL email, phone⟩, true,
        "Customer created successfully", []⟩,
       { s with
          customers := s.customers ++ [⟨s.nextCustomerId, stripL name, stripL email, phone⟩],
          nextCustomerId := s.nextCustomerId + 1 }) := by
  unfold createCustomer
  simp [createCustomerErrors, hv, hex, hp]

theorem createCustomer_cases (s : State) (name email : List Char)
    (phone : Option (List Char)) :
    (createCustomer s name email phone).1.errors = [] ∨
    ((createCustomer s name email phone).1.success = false ∧
     (createCustomer s name email phone).1.customer = none ∧
     (createCustomer s name email phone).2 = s) := by
  unfold createCustomer
  dsimp only
  split
  · left; rfl
  · right; exact ⟨rfl, rfl, rfl⟩

theorem createProduct_errors_eq (s : State) (name : List Char) (price stock : Int) :
    (createProduct s name price stock).1.errors =
      createProductErrors name price stock := by
  unfold createProduct
  dsimp only
  split
  · rename_i h
    rw [List.isEmpty_iff] at h
    exact h.symm
  · rfl

theorem createProduct_cases (s : State) (name : List Char) (price stock : Int) :
    (createProduct s name price stock).1.errors = [] ∨
    ((createProduct s name price stock).1.success = false ∧
     (createProduct s name price stock).1.product = none ∧
     (createProduct s name price stock).2 = s) := by
  unfold createProduct
  dsimp only
  split
  · left; rfl
  · right; exact ⟨rfl, rfl, rfl⟩

theorem createOrder_errors_eq (s : State) (cid : Nat) (pids : List Nat) :
    (createOrder s cid pids).1.errors =
      createOrderErrors s cid pids := by
  unfold createOrder
  dsimp only
  split
  · rename_i h
    rw [List.isEmpty_iff] at h
    exact h.symm
  · rfl

theorem createOrder_success (s : State) (cid : Nat) (pids : List Nat)
    (hc : (getCustomer s cid).isNone = false)
    (hne : pids.isEmpty = false)
    (hlen : (resolveProducts s pids).length = pids.length) :
    createOrder s cid pids =
      (⟨some ⟨s.nextOrderId, cid, (resolveProducts s pids).map (fun p => p.id),
          ((resolveProducts s pids).map (fun p => p.price)).sum⟩, true,
        "Order created successfully", []⟩,
       { s with
          orders := s.orders ++ [⟨s.nextOrderId, cid, (resolveProducts s pids).map (fun p => p.id),
            ((resolveProducts s pids).map (fun p => p.price)).sum⟩],
          nextOrderId := s.nextOrderId + 1 }) := by
  unfold createOrder
  simp [createOrderErrors, hc, hne, hlen]

theorem createCustomer_state_cases (s : State) (name email : List Char)
    (phone : Option (List Char)) :
    (createCustomer s name email phone).2 = s ∨
    (validate_email email = true ∧ emailExists s email = false ∧
     (createCustomer s name email phone).2 =
       { s with
          customers := s.customers ++ [⟨s.nextCustomerId, stripL name, stripL email, phone⟩],
          nextCustomerId := s.nextCustomerId + 1 }) := by
  unfold createCustomer
  dsimp only
  split
  · rename_i h
    rw [List.isEmpty_iff] at h
    unfold createCustomerErrors at h
    rcases List.append_eq_nil.mp h with ⟨hAB, hC⟩
    rcases List.append_eq_nil.mp hAB with ⟨hA, hB⟩
    right
    refine ⟨?_, ?_, rfl⟩
    · by_contra hv
      rw [Bool.not_eq_true] at hv
      simp [hv] at hA
    · by_contra hex
      rw [Bool.not_eq_false] at hex
      simp [hex] at hB
  · left; rfl

theorem createCustomer_emailsOk (s : State) (name email : List Char)
    (phone : Option (List Char)) (h : emailsOk s) :
    emailsOk (createCustomer s name email phone).2 := by
  rcases createCustomer_state_cases s name email phone with h0 | ⟨hv, hex, h0⟩
  · rw [h0]; exact h
  · rw [h0]
    unfold emailsOk
    apply emailsOk_snoc _ _ h
    intro c hc
    dsimp only
    rw [validate_email_stripL email hv]
    exact emailExists_false s email hex c hc

theorem bulkCreateCustomers_eq (s : State) (inputs : List CustomerInput) :
    (bulkCreateCustomers s inputs).1.createdCustomers = (bulkGo s 0 inputs).1 ∧
    (bulkCreateCustomers s inputs).1.errors = (bulkGo s 0 inputs).2.1 ∧
    (bulkCreateCustomers s inputs).2 = (bulkGo s 0 inputs).2.2 := by
  rcases hgo : bulkGo s 0 inputs with ⟨cs, es, s2⟩
  simp [bulkCreateCustomers, hgo]

theorem bulkCreateCustomers_emailsOk (s : State) (inputs : List CustomerInput)
    (h : emailsOk s) : emailsOk (bulkCreateCustomers s inputs).2 := by
  rw [(bulkCreateCustomers_eq s inputs).2.2]
  exact bulkGo_emailsOk inputs s 0 h

theorem bulkCreateCustomers_message (s : State) (inputs : List CustomerInput) :
    ((bulkCreateCustomers s inputs).1.success = true ↔
      (bulkCreateCustomers s inputs).1.errors = []) ∧
    ((bulkCreateCustomers s inputs).1.errors = [] →
      (bulkCreateCustomers s inputs).1.message = "All customers created successfully.") ∧
    ((bulkCreateCustomers s inputs).1.errors ≠ [] →
      (bulkCreateCustomers s inputs).1.message =
        "Created " ++ toString (bulkCreateCustomers s inputs).1.createdCustomers.length ++
          " customers; " ++ toString (bulkCreateCustomers s inputs).1.errors.length ++
          " failed.") := by
  rcases hgo : bulkGo s 0 inputs with ⟨cs, es, s2⟩
  by_cases he : es = []
  · subst he
    simp [bulkCreateCustomers, hgo]
  · have hlen : es.length ≠ 0 := by
      intro h0
      exact he (List.length_eq_zero.mp h0)
    simp [bulkCreateCustomers, hgo, he, hlen]

theorem createOrder_cases (s : State) (cid : Nat) (pids : List Nat) :
    (createOrder s cid pids).1.errors = [] ∨
    ((createOrder s cid pids).1.success = false ∧
     (createOrder s cid pids).1.order = none ∧
     (createOrder s cid pids).2 = s) := by
  unfold createOrder
  dsimp only
  split
  · left; rfl
  · right; exact ⟨rfl, rfl, rfl⟩

theorem createOrder_missing_id_error (s : State) (cid : Nat) (pids : List Nat)
    (hwf : s.wf) (hne : pids ≠ [])
    (hmiss : ∃ j ∈ pids, ∀ p ∈ s.products, p.id ≠ j) :
    (⟨"product_ids", "Invalid IDs: " ++ renderIds (invalidIds s pids)⟩ : FieldError) ∈
      (createOrder s cid pids).1.errors := by
  rw [createOrder_errors_eq]
  unfold createOrderErrors
  rcases hmiss with ⟨j, hj, hm⟩
  have hne2 : pids.isEmpty = false := by simpa [List.isEmpty_eq_false] using hne
  have hlt := resolve_length_lt s pids hwf j hj hm
  have hneq : (resolveProducts s pids).length ≠ pids.length := by omega
  simp [hne2, hneq]

/-! Claim theorems. -/

/-- C3: bulkCreateCustomers processes items independently, left to right:
every call yields one outcome per item (created count plus error count
equals the input count), successes are appended to the store regardless of
other items' failures, and every error is tagged with the positional index
of its item; concretely, the input [valid, duplicate-email, valid] creates
exactly the two valid customers (positions 0 and 2) and reports exactly one
error indexed to position 1. -/
theorem c3_bulk_per_item_isolation :
    (∀ (s : State) (inputs : List CustomerInput),
      (bulkCreateCustomers s inputs).1.createdCustomers.length +
          (bulkCreateCustomers s inputs).1.errors.length = inputs.length ∧
      (bulkCreateCustomers s inputs).2.customers =
        s.customers ++ (bulkCreateCustomers s inputs).1.createdCustomers ∧
      (∀ e ∈ (bulkCreateCustomers s inputs).1.errors,
        ∃ j, j < inputs.length ∧
          (e.field = bulkEmailField j ∨ e.field = bulkPhoneField j))) ∧
    ((bulkCreateCustomers emptyState [inputA, inputDupA, inputC]).1.createdCustomers.length = 2 ∧
     (bulkCreateCustomers emptyState [inputA, inputDupA, inputC]).1.errors =
       [⟨bulkEmailField 1, "Email already exists."⟩] ∧
     (bulkCreateCustomers emptyState [inputA, inputDupA, inputC]).2.customers =
       [⟨1, "A".toList, "a@x.com".toList, none⟩,
        ⟨2, "C".toList, "b@x.com".toList, none⟩]) := by
  constructor
  · intro s inputs
    obtain ⟨hc, herr, hst⟩ := bulkCreateCustomers_eq s inputs
    refine ⟨?_, ?_, ?_⟩
    · rw [hc, herr]
      exact bulkGo_count inputs s 0
    · rw [hst, hc]
      exact bulkGo_customers inputs s 0
    · intro e he
      rw [herr] at he
      rcases bulkGo_error_fields inputs s 0 e he with ⟨j, hj1, hj2, hj3⟩
      exact ⟨j, by simpa using hj2, hj3⟩
  · refine ⟨by decide, by decide, by decide⟩

/-- Witness for C3: the indexed-error clause instantiated at the concrete
partial-failure scenario. -/
theorem c3_witness :
    ∃ j, j < (3 : Nat) ∧
      ((⟨bulkEmailField 1, "Email already exists."⟩ : FieldError).field = bulkEmailField j ∨
       (⟨bulkEmailField 1, "Email already exists."⟩ : FieldError).field = bulkPhoneField j) :=
  (c3_bulk_per_item_isolation.1 emptyState [inputA, inputDupA, inputC]).2.2
    ⟨bulkEmailField 1, "Email already exists."⟩ (by decide)

/-- C5: no two persisted customers ever share an email under
case-insensitive comparison: the invariant holds in the empty initial state
and is preserved by every createCustomer and bulkCreateCustomers call;
concretely, creating "a@x.com" and then attempting "A@X.COM" rejects the
second with an email FieldError and no write. -/
theorem c5_email_uniqueness_invariant :
    emailsOk emptyState ∧
    (∀ (s : State) (name email : List Char) (phone : Option (List Char)),
      emailsOk s → emailsOk (createCustomer s name email phone).2) ∧
    (∀ (s : State) (inputs : List CustomerInput),
      emailsOk s → emailsOk (bulkCreateCustomers s inputs).2) ∧
    ((createCustomer (createCustomer emptyState "A".toList "a@x.com".toList none).2
        "B".toList "A@X.COM".toList none).1.success = false ∧
     (createCustomer (createCustomer emptyState "A".toList "a@x.com".toList none).2
        "B".toList "A@X.COM".toList none).1.errors =
       [⟨"email", "Email already exists."⟩] ∧
     (createCustomer (createCustomer emptyState "A".toList "a@x.com".toList none).2
        "B".toList "A@X.COM".toList none).2 =
       (createCustomer emptyState "A".toList "a@x.com".toList none).2) := by
  refine ⟨by decide, ?_, ?_, by decide, by decide, by decide⟩
  · intro s name email phone h
    exact createCustomer_emailsOk s name email phone h
  · intro s inputs h
    exact bulkCreateCustomers_emailsOk s inputs h

/-- Witness for C5: the bulk-preservation clause instantiated on the
concrete partial-failure batch over the empty store. -/
theorem c5_witness :
    emailsOk (bulkCreateCustomers emptyState [inputA, inputDupA, inputC]).2 :=
  c5_email_uniqueness_invariant.2.2.1 emptyState [inputA, inputDupA, inputC] (by decide)

/-- C9 fails as stated: in the all-success case the summary message is the
fixed text "All customers created successfully.", identical for calls that
created one and two customers, so it reports no counts. -/
theorem c9_counterexample :
    (bulkCreateCustomers emptyState [inputA]).1.errors = [] ∧
    (bulkCreateCustomers emptyState [inputA, inputC]).1.errors = [] ∧
    (bulkCreateCustomers emptyState [inputA]).1.createdCustomers.length = 1 ∧
    (bulkCreateCustomers emptyState [inputA, inputC]).1.createdCustomers.length = 2 ∧
    (bulkCreateCustomers emptyState [inputA]).1.message =
      (bulkCreateCustomers emptyState [inputA, inputC]).1.message := by
  refine ⟨by decide, by decide, by decide, by decide, by decide⟩

/-- C9 (amended): success is true iff the error list is empty; the summary
message reports the created and failed counts in the partial-failure case,
and is the fixed count-free text "All customers created successfully." in
the all-success case. -/
theorem c9_amended (s : State) (inputs : List CustomerInput) :
    ((bulkCreateCustomers s inputs).1.success = true ↔
      (bulkCreateCustomers s inputs).1.errors = []) ∧
    ((bulkCreateCustomers s inputs).1.errors = [] →
      (bulkCreateCustomers s inputs).1.message = "All customers created successfully.") ∧
    ((bulkCreateCustomers s inputs).1.errors ≠ [] →
      (bulkCreateCustomers s inputs).1.message =
        "Created " ++ toString (bulkCreateCustomers s inputs).1.createdCustomers.length ++
          " customers; " ++ toString (bulkCreateCustomers s inputs).1.errors.length ++
          " failed.") :=
  bulkCreateCustomers_message s inputs

/-- Witness for C9 (amended): the partial-failure scenario yields the
count-bearing message and a false success flag. -/
theorem c9_witness :
    (bulkCreateCustomers emptyState [inputA, inputDupA, inputC]).1.message =
      "Created 2 customers; 1 failed." ∧
    (bulkCreateCustomers emptyState [inputA, inputDupA, inputC]).1.success = false := by
  have h := c9_amended emptyState [inputA, inputDupA, inputC]
  constructor
  · have hm := h.2.2 (by decide)
    rw [hm]
    decide
  · have hs := h.1
    by_contra hb
    rw [Bool.not_eq_false] at hb
    have := hs.mp hb
    revert this
    decide

/-- C1 fails as stated: in `demoState` the customer resolves and every
entry of the duplicated request [1, 1] resolves to a persisted product, yet
the mutation returns failure and persists nothing, because the source
compares the count of resolved rows (1) with the raw request length (2). -/
theorem c1_counterexample :
    ([1, 1].all (fun i => demoState.products.any (fun p => p.id = i)) = true) ∧
    (getCustomer demoState 1).isSome = true ∧
    (createOrder demoState 1 [1, 1]).1.success = false ∧
    (createOrder demoState 1 [1, 1]).2 = demoState := by
  refine ⟨by decide, by decide, by decide, by decide⟩

/-- C1 (amended): for every createOrder request whose customer resolves and
whose product list is non-empty, duplicate-free and fully resolving (over a
store with distinct product primary keys), the mutation succeeds, the
persisted order is associated with all the resolved products, and its
stored total is the exact fixed-point sum of their current prices. -/
theorem c1_total_amount (s : State) (cid : Nat) (pids : List Nat)
    (hwf : s.wf) (hnd : pids.Nodup) (hne : pids ≠ [])
    (hcust : (getCustomer s cid).isSome = true)
    (hall : ∀ i ∈ pids, ∃ p ∈ s.products, p.id = i) :
    (createOrder s cid pids).1.success = true ∧
    (createOrder s cid pids).1.order =
      some ⟨s.nextOrderId, cid, (resolveProducts s pids).map (fun p => p.id),
        ((resolveProducts s pids).map (fun p => p.price)).sum⟩ ∧
    (createOrder s cid pids).2.orders =
      s.orders ++ [⟨s.nextOrderId, cid, (resolveProducts s pids).map (fun p => p.id),
        ((resolveProducts s pids).map (fun p => p.price)).sum⟩] ∧
    (∀ i ∈ pids, i ∈ (resolveProducts s pids).map (fun p => p.id)) ∧
    (createOrder s cid pids).2.customers = s.customers ∧
    (createOrder s cid pids).2.products = s.products := by
  have hc : (getCustomer s cid).isNone = false := by
    cases hg : getCustomer s cid with
    | none => rw [hg] at hcust; simp at hcust
    | some c => rfl
  have hnee : pids.isEmpty = false := by simpa [List.isEmpty_eq_false] using hne
  have hlen := resolve_length_eq s pids hwf hnd hall
  rw [createOrder_success s cid pids hc hnee hlen]
  refine ⟨rfl, rfl, rfl, ?_, rfl, rfl⟩
  intro i hi
  exact (mem_resolve_ids s pids i).mpr ⟨hall i hi, hi⟩

/-- Witness for C1 (amended): products priced 10.00 and 15.00 give a
persisted order holding exactly 25.00 with both products associated. -/
theorem c1_witness :
    (createOrder demoState 1 [1, 2]).1.success = true ∧
    (createOrder demoState 1 [1, 2]).2.orders = [⟨1, 1, [1, 2], 2500⟩] := by
  have h := c1_total_amount demoState 1 [1, 2] (by decide) (by decide) (by decide)
    (by decide) (by decide)
  refine ⟨h.1, ?_⟩
  rw [h.2.2.1]
  decide

/-- C2: whenever the customer does not resolve, or the product list is
empty, or some requested product id does not resolve, createOrder persists
nothing (state unchanged), returns failure, and reports the corresponding
field error. -/
theorem c2_no_write_on_error (s : State) (cid : Nat) (pids : List Nat)
    (hwf : s.wf)
    (hbad : getCustomer s cid = none ∨ pids = [] ∨
            ∃ j ∈ pids, ∀ p ∈ s.products, p.id ≠ j) :
    (createOrder s cid pids).1.success = false ∧
    (createOrder s cid pids).1.order = none ∧
    (createOrder s cid pids).2 = s ∧
    (getCustomer s cid = none →
      (⟨"customer_id", "Invalid customer ID."⟩ : FieldError) ∈
        (createOrder s cid pids).1.errors) ∧
    (pids = [] →
      (⟨"product_ids", "At least one product is required."⟩ : FieldError) ∈
        (createOrder s cid pids).1.errors) ∧
    ((pids ≠ [] ∧ ∃ j ∈ pids, ∀ p ∈ s.products, p.id ≠ j) →
      (⟨"product_ids", "Invalid IDs: " ++ renderIds (invalidIds s pids)⟩ : FieldError) ∈
        (createOrder s cid pids).1.errors) := by
  have herr : createOrderErrors s cid pids ≠ [] := by
    unfold createOrderErrors
    rcases hbad with h | h | ⟨j, hj, hmiss⟩
    · simp [h]
    · simp [h]
    · have hne : pids.isEmpty = false := by
        rcases pids with _ | ⟨a, t⟩
        · cases hj
        · rfl
      have hlt := resolve_length_lt s pids hwf j hj hmiss
      have hneq : (resolveProducts s pids).length ≠ pids.length := by omega
      simp [hne, hneq]
  rcases createOrder_cases s cid pids with h0 | ⟨hs, ho, hst⟩
  · rw [createOrder_errors_eq] at h0
    exact absurd h0 herr
  refine ⟨hs, ho, hst, ?_, ?_, ?_⟩
  · intro h
    rw [createOrder_errors_eq]
    unfold createOrderErrors
    simp [h]
  · intro h
    rw [createOrder_errors_eq]
    unfold createOrderErrors
    simp [h]
  · rintro ⟨hne, j, hj, hmiss⟩
    exact createOrder_missing_id_error s cid pids hwf hne ⟨j, hj, hmiss⟩

/-- Witness for C2: a request naming a missing customer writes nothing and
reports the customer_id error. -/
theorem c2_witness :
    (createOrder demoState 7 [1]).1.success = false ∧
    (createOrder demoState 7 [1]).2 = demoState ∧
    (⟨"customer_id", "Invalid customer ID."⟩ : FieldError) ∈
      (createOrder demoState 7 [1]).1.errors := by
  have h := c2_no_write_on_error demoState 7 [1] (by decide) (Or.inl (by decide))
  exact ⟨h.1, h.2.2.1, h.2.2.2.1 (by decide)⟩

/-- C8 fails as stated: requesting [1, 9] against a store holding product 1
(which resolves) and missing 9 produces a product_ids FieldError that names
BOTH requested ids — the resolved id 1 included — because the source's set
difference compares the string-typed request against integer primary keys
and removes nothing. -/
theorem c8_counterexample :
    (demoState.products.any (fun p => p.id = 1)) = true ∧
    1 ∈ invalidIds demoState [1, 9] ∧
    renderIds (invalidIds demoState [1, 9]) = "1, 9" ∧
    (⟨"product_ids", "Invalid IDs: 1, 9"⟩ : FieldError) ∈
      (createOrder demoState 1 [1, 9]).1.errors := by
  refine ⟨by decide, by decide, by decide, by decide⟩

/-- C8 (amended): whenever the non-empty request contains an id that
resolves to no product, the returned product_ids FieldError names every
requested identity (as a duplicate-free set) — not only the missing ones —
since the source's `set(product_ids) - set(p.id ...)` difference compares
strings against integers and retains the whole request. -/
theorem c8_all_requested_ids (s : State) (cid : Nat) (pids : List Nat)
    (hwf : s.wf) (hne : pids ≠ [])
    (hmiss : ∃ j ∈ pids, ∀ p ∈ s.products, p.id ≠ j) :
    ((⟨"product_ids", "Invalid IDs: " ++ renderIds (invalidIds s pids)⟩ : FieldError) ∈
      (createOrder s cid pids).1.errors) ∧
    (∀ i, i ∈ invalidIds s pids ↔ i ∈ pids) := by
  exact ⟨createOrder_missing_id_error s cid pids hwf hne hmiss,
    fun i => mem_invalidIds s pids i⟩

/-- Witness for C8 (amended): requesting [1, 9] against a store holding
only products 1 and 2 reports both requested ids, the resolved 1 and the
missing 9. -/
theorem c8_witness :
    ((⟨"product_ids", "Invalid IDs: " ++ renderIds (invalidIds demoState [1, 9])⟩ : FieldError) ∈
      (createOrder demoState 1 [1, 9]).1.errors) ∧
    9 ∈ invalidIds demoState [1, 9] ∧ 1 ∈ invalidIds demoState [1, 9] ∧
    renderIds (invalidIds demoState [1, 9]) = "1, 9" := by
  have h := c8_all_requested_ids demoState 1 [1, 9] (by decide) (by decide)
    ⟨9, by decide, by decide⟩
  exact ⟨h.1, (h.2 9).mpr (by decide), (h.2 1).mpr (by decide), by decide⟩

/-- C4 fails as stated: the bulk per-item validation stops at the first
violated rule; an item whose (stripped) email is malformed and whose phone
is also malformed yields exactly one FieldError, the email one. -/
theorem c4_counterexample :
    validate_email (stripL "bad".toList) = false ∧
    (phoneTruthy (some "xyz".toList) && !validate_phone ((some "xyz".toList).getD [])) = true ∧
    (bulkCreateCustomers emptyState
        [⟨"N".toList, "bad".toList, some "xyz".toList⟩]).1.errors =
      [⟨bulkEmailField 0, "Invalid email format."⟩] := by
  refine ⟨by decide, by decide, by decide⟩

/-- C4 (amended): createCustomer and createProduct return one FieldError
per violated rule, all collected together (membership in the error list is
exactly the violation of the corresponding rule); the per-item validation
of bulkCreateCustomers instead stops at the first violated rule — an item
failing email validation contributes only the email error. -/
theorem c4_collect_all (s : State) (name email : List Char)
    (phone : Option (List Char)) (price stock : Int) :
    ((⟨"email", "Invalid email format."⟩ : FieldError) ∈
        (createCustomer s name email phone).1.errors ↔ validate_email email = false) ∧
    ((⟨"email", "Email already exists."⟩ : FieldError) ∈
        (createCustomer s name email phone).1.errors ↔ emailExists s email = true) ∧
    ((⟨"phone", "Invalid phone format. Use +1234567890 or 123-456-7890."⟩ : FieldError) ∈
        (createCustomer s name email phone).1.errors ↔
      (phoneTruthy phone && !validate_phone (phone.getD [])) = true) ∧
    ((⟨"name", "Name cannot be empty."⟩ : FieldError) ∈
        (createProduct s name price stock).1.errors ↔ (stripL name).isEmpty = true) ∧
    ((⟨"price", "Price must be positive."⟩ : FieldError) ∈
        (createProduct s name price stock).1.errors ↔ price ≤ 0) ∧
    ((⟨"stock", "Stock cannot be negative."⟩ : FieldError) ∈
        (createProduct s name price stock).1.errors ↔ stock < 0) ∧
    (∀ (i : Nat) (c : CustomerInput), validate_email (stripL c.email) = false →
      processItem s i c = (Sum.inr ⟨bulkEmailField i, "Invalid email format."⟩, s)) := by
  rw [createCustomer_errors_eq, createProduct_errors_eq]
  unfold createCustomerErrors createProductErrors
  refine ⟨?_, ?_, ?_, ?_, ?_, ?_, ?_⟩
  · by_cases hv : validate_email email = true <;>
      by_cases hex : emailExists s email = true <;>
        by_cases hp : (phoneTruthy phone && !validate_phone (phone.getD [])) = true <;>
          simp [hv, hex, hp]
  · by_cases hv : validate_email email = true <;>
      by_cases hex : emailExists s email = true <;>
        by_cases hp : (phoneTruthy phone && !validate_phone (phone.getD [])) = true <;>
          simp [hv, hex, hp]
  · by_cases hv : validate_email email = true <;>
      by_cases hex : emailExists s email = true <;>
        by_cases hp : (phoneTruthy phone && !validate_phone (phone.getD [])) = true <;>
          simp [hv, hex, hp]
  · by_cases hn : (stripL name).isEmpty = true <;>
      by_cases hpr : price ≤ 0 <;>
        by_cases hst : stock < 0 <;>
          simp [hn, hpr, hst]
  · by_cases hn : (stripL name).isEmpty = true <;>
      by_cases hpr : price ≤ 0 <;>
        by_cases hst : stock < 0 <;>
          simp [hn, hpr, hst]
  · by_cases hn : (stripL name).isEmpty = true <;>
      by_cases hpr : price ≤ 0 <;>
        by_cases hst : stock < 0 <;>
          simp [hn, hpr, hst]
  · intro i c h
    unfold processItem
    dsimp only
    simp [h]

/-- Witness for C4 (amended): a request with malformed email and malformed
phone receives both errors from createCustomer, while the same data as a
bulk item receives only the email error. -/
theorem c4_witness :
    (⟨"email", "Invalid email format."⟩ : FieldError) ∈
      (createCustomer emptyState "N".toList "bad".toList (some "xyz".toList)).1.errors ∧
    (⟨"phone", "Invalid phone format. Use +1234567890 or 123-456-7890."⟩ : FieldError) ∈
      (createCustomer emptyState "N".toList "bad".toList (some "xyz".toList)).1.errors ∧
    processItem emptyState 0 ⟨"N".toList, "bad".toList, some "xyz".toList⟩ =
      (Sum.inr ⟨bulkEmailField 0, "Invalid email format."⟩, emptyState) := by
  have h := c4_collect_all emptyState "N".toList "bad".toList (some "xyz".toList) 100 0
  exact ⟨h.1.mpr (by decide), h.2.2.1.mpr (by decide),
    h.2.2.2.2.2.2 0 ⟨"N".toList, "bad".toList, some "xyz".toList⟩ (by decide)⟩

/-- C6: a createCustomer call with valid email (well-formed and unused) and
valid-or-absent phone persists exactly one customer, with name and email
trimmed, and succeeds; a call violating any of the three rules persists
nothing, fails, and returns a non-empty error list naming only offending
fields. -/
theorem c6_createCustomer_contract (s : State) (name email : List Char)
    (phone : Option (List Char)) :
    ((validate_email email = true ∧ emailExists s email = false ∧
      (phoneTruthy phone && !validate_phone (phone.getD [])) = false) →
      (createCustomer s name email phone).1.success = true ∧
      (createCustomer s name email phone).2.customers =
        s.customers ++ [⟨s.nextCustomerId, stripL name, stripL email, phone⟩] ∧
      (createCustomer s name email phone).1.errors = []) ∧
    ((validate_email email = false ∨ emailExists s email = true ∨
      (phoneTruthy phone && !validate_phone (phone.getD [])) = true) →
      (createCustomer s name email phone).1.success = false ∧
      (createCustomer s name email phone).2 = s ∧
      (createCustomer s name email phone).1.errors ≠ [] ∧
      ∀ e ∈ (createCustomer s name email phone).1.errors,
        (e.field = "email" ∧
          (validate_email email = false ∨ emailExists s email = true)) ∨
        (e.field = "phone" ∧
          (phoneTruthy phone && !validate_phone (phone.getD [])) = true)) := by
  constructor
  · rintro ⟨hv, hex, hp⟩
    rw [createCustomer_success s name email phone hv hex hp]
    exact ⟨rfl, rfl, rfl⟩
  · intro hbad
    have herr : createCustomerErrors s email phone ≠ [] := by
      unfold createCustomerErrors
      rcases hbad with h | h | h
      · simp [h]
      · simp [h]
      · simp [h]
    rcases createCustomer_cases s name email phone with h0 | ⟨hs, hc, hst⟩
    · rw [createCustomer_errors_eq] at h0
      exact absurd h0 herr
    refine ⟨hs, hst, ?_, ?_⟩
    · rw [createCustomer_errors_eq]
      exact herr
    · intro e he
      rw [createCustomer_errors_eq] at he
      unfold createCustomerErrors at he
      rcases List.mem_append.mp he with h1 | h3
      · rcases List.mem_append.mp h1 with ha | hb
        · by_cases hv : validate_email email = true
          · rw [if_pos hv] at ha
            simp at ha
          · rw [if_neg hv] at ha
            have he2 : e = ⟨"email", "Invalid email format."⟩ := by simpa using ha
            subst he2
            exact Or.inl ⟨rfl, Or.inl (by simpa using hv)⟩
        · by_cases hex : emailExists s email = true
          · rw [if_pos hex] at hb
            have he2 : e = ⟨"email", "Email already exists."⟩ := by simpa using hb
            subst he2
            exact Or.inl ⟨rfl, Or.inr hex⟩
          · rw [if_neg hex] at hb
            simp at hb
      · by_cases hp : (phoneTruthy phone && !validate_phone (phone.getD [])) = true
        · rw [if_pos hp] at h3
          have he2 : e =
              ⟨"phone", "Invalid phone format. Use +1234567890 or 123-456-7890."⟩ := by
            simpa using h3
          subst he2
          exact Or.inr ⟨rfl, hp⟩
        · rw [if_neg hp] at h3
          simp at h3

/-- Witness for C6: a valid request persists one trimmed customer; a
malformed-email request persists nothing and fails. -/
theorem c6_witness :
    (createCustomer emptyState " A ".toList " a@x.com ".toList none).1.success = false ∧
    (createCustomer emptyState "A".toList "a@x.com".toList none).1.success = true ∧
    (createCustomer emptyState "A".toList "a@x.com".toList none).2.customers =
      [⟨1, "A".toList, "a@x.com".toList, none⟩] ∧
    (createCustomer emptyState "bad".toList "bad".toList none).1.success = false ∧
    (createCustomer emptyState "bad".toList "bad".toList none).2 = emptyState := by
  have h1 := (c6_createCustomer_contract emptyState "A".toList "a@x.com".toList none).1
    ⟨by decide, by decide, by decide⟩
  have h2 := (c6_createCustomer_contract emptyState "bad".toList "bad".toList none).2
    (Or.inl (by decide))
  refine ⟨by decide, h1.1, ?_, h2.1, h2.2.1⟩
  rw [h1.2.1]
  decide

/-- C7 fails as stated: with threshold 10 and amount 50, the product that
started at stock 5 is at 55 after one call, and a second call leaves it at
55 — not 105 — because 55 is no longer strictly below the threshold (the
second call touches zero products). -/
theorem c7_counterexample :
    (updateLowStockProducts demoState 10 50).2.products.map (fun p => p.stock) =
      [55, 20] ∧
    (updateLowStockProducts
        (updateLowStockProducts demoState 10 50).2 10 50).2.products.map
          (fun p => p.stock) = [55, 20] ∧
    (updateLowStockProducts (updateLowStockProducts demoState 10 50).2 10 50).1 = 0 := by
  refine ⟨by decide, by decide, by decide⟩

/-- C7 (amended): every product strictly below the threshold has its stock
incremented by exactly the restock amount (not set to the threshold), every
product at or above the threshold is untouched, and the returned count is
the number of products that were below the threshold; hence a product at
stock 5 becomes 55 after one call with threshold 10 and amount 50, stays at
55 after a second call (no longer below the threshold), and a product at
stock 20 is untouched by both. -/
theorem c7_replenish_semantics (s : State) (threshold amount : Int) (i : Nat)
    (h : i < s.products.length) :
    (updateLowStockProducts s threshold amount).1 =
      (s.products.filter (fun p => p.stock < threshold)).length ∧
    (updateLowStockProducts s threshold amount).2.products.length =
      s.products.length ∧
    ((s.products.getD i dfltProduct).stock < threshold →
      (updateLowStockProducts s threshold amount).2.products.getD i dfltProduct =
        { s.products.getD i dfltProduct with
            stock := (s.products.getD i dfltProduct).stock + amount }) ∧
    (threshold ≤ (s.products.getD i dfltProduct).stock →
      (updateLowStockProducts s threshold amount).2.products.getD i dfltProduct =
        s.products.getD i dfltProduct) ∧
    (updateLowStockProducts s threshold amount).2.customers = s.customers ∧
    (updateLowStockProducts s threshold amount).2.orders = s.orders := by
  have hgd : s.products.getD i dfltProduct = s.products[i] := by
    rw [List.getD_eq_getElem?_getD, List.getElem?_eq_getElem h]
    rfl
  unfold updateLowStockProducts
  dsimp only
  refine ⟨rfl, by simp, ?_, ?_, rfl, rfl⟩
  · intro hlt
    rw [hgd] at hlt ⊢
    rw [List.getD_eq_getElem?_getD, List.getElem?_map, List.getElem?_eq_getElem h]
    simp [hlt]
  · intro hge
    rw [hgd] at hge ⊢
    rw [List.getD_eq_getElem?_getD, List.getElem?_map, List.getElem?_eq_getElem h]
    simp [not_lt.mpr hge]

/-- Witness for C7 (amended): the demo store, first and second call. -/
theorem c7_witness :
    (updateLowStockProducts demoState 10 50).1 = 1 ∧
    (updateLowStockProducts demoState 10 50).2.products.getD 0 dfltProduct =
      ⟨1, "P1".toList, 1000, 55⟩ ∧
    (updateLowStockProducts
        (updateLowStockProducts demoState 10 50).2 10 50).2.products.getD 0 dfltProduct =
      ⟨1, "P1".toList, 1000, 55⟩ ∧
    (updateLowStockProducts demoState 10 50).2.products.getD 1 dfltProduct =
      ⟨2, "P2".toList, 1500, 20⟩ := by
  have h1 := c7_replenish_semantics demoState 10 50 0 (by decide)
  have h2 := c7_replenish_semantics (updateLowStockProducts demoState 10 50).2 10 50 0
    (by decide)
  have h3 := c7_replenish_semantics demoState 10 50 1 (by decide)
  have ha := h1.2.2.1 (by decide)
  have hb := h2.2.2.2.1 (by decide)
  have hc := h3.2.2.2.1 (by decide)
  refine ⟨h1.1.trans (by decide), ?_, ?_, ?_⟩
  · rw [ha]; decide
  · rw [hb]; decide
  · rw [hc]; decide

/-- C10: createCustomer applies no non-emptiness check to the name — with a
valid email and phone, a whitespace-only name is accepted and persisted as
the empty trimmed name with success — unlike createProduct, which rejects
an empty trimmed name with a FieldError and no write. -/
theorem c10_no_name_check (s : State) (name email : List Char)
    (phone : Option (List Char)) (price stock : Int)
    (hv : validate_email email = true) (hex : emailExists s email = false)
    (hp : (phoneTruthy phone && !validate_phone (phone.getD [])) = false) :
    (createCustomer s name email phone).1.success = true ∧
    (createCustomer s name email phone).2.customers =
      s.customers ++ [⟨s.nextCustomerId, stripL name, stripL email, phone⟩] ∧
    ((stripL name).isEmpty = true →
      (⟨"name", "Name cannot be empty."⟩ : FieldError) ∈
        (createProduct s name price stock).1.errors ∧
      (createProduct s name price stock).1.success = false ∧
      (createProduct s name price stock).2 = s) := by
  rw [createCustomer_success s name email phone hv hex hp]
  refine ⟨rfl, rfl, ?_⟩
  intro hn
  have herr : createProductErrors name price stock ≠ [] := by
    unfold createProductErrors
    simp [hn]
  rcases createProduct_cases s name price stock with h0 | ⟨hs, hprod, hst⟩
  · rw [createProduct_errors_eq] at h0
    exact absurd h0 herr
  refine ⟨?_, hs, hst⟩
  rw [createProduct_errors_eq]
  unfold createProductErrors
  simp [hn]

/-- Witness for C10: a whitespace-only name is accepted by createCustomer
and persisted empty, while createProduct rejects it. -/
theorem c10_witness :
    (createCustomer emptyState "   ".toList "a@x.com".toList none).1.success = true ∧
    (createCustomer emptyState "   ".toList "a@x.com".toList none).2.customers =
      [⟨1, [], "a@x.com".toList, none⟩] ∧
    (createProduct emptyState "   ".toList 100 0).1.success = false ∧
    (createProduct emptyState "   ".toList 100 0).2 = emptyState := by
  have h := c10_no_name_check emptyState "   ".toList "a@x.com".toList none 100 0
    (by decide) (by decide) (by decide)
  have h2 := h.2.2 (by decide)
  refine ⟨h.1, ?_, h2.2.1, h2.2.2⟩
  rw [h.2.1]
  decide

end Crm

